import Mathlib

/-!
Verification of the host-mcp-jenkins core against its specification.

The definitions below are a shallow embedding of the TypeScript source:

* `src/jenkins/client.ts` — the resilient HTTP client (`JenkinsClient`),
  in its retry-enabled form (`fetchWithRetry`, `handleError`, the
  `get` / `getText` / `post` / `head` verbs) and the retry-less
  `getTextWithHeaders` method, which issues a single direct `fetch`.
* `src/tools/logs.ts` — the log pager (`getBuildLog` handler) and the
  log searcher (`searchBuildLog` handler).
* `src/tools/scm.ts` — the SCM URL normalization (`looselyMatchesUrl`).

Log text is modelled as `List Char`; JavaScript's `String.split("\n")`
is embedded as the recursive `splitOnChar`.  HTTP exchanges are modelled
by an injected transport `Nat → Attempt` giving the outcome of each
attempt — a response with status / body, a network error, a
`DOMException` named `AbortError`, or the `DOMException` named
`TimeoutError` that `AbortSignal.timeout` raises on Node ≥ 20 when the
per-request timeout fires — mirroring how the unit tests inject a
mocked `fetch`.
-/

namespace HostMcpJenkins

/-! ### Log pager and searcher (`src/tools/logs.ts`) -/

/-- JavaScript `str.split(sep)` for a one-character separator, on
character lists: `"" ↦ [""]`, `"a\nb" ↦ ["a","b"]`, `"a\n" ↦ ["a",""]`. -/
def splitOnChar (c : Char) : List Char → List (List Char)
  | [] => [[]]
  | x :: xs =>
    match splitOnChar c xs with
    | [] => [[]]
    | h :: t => if x = c then [] :: h :: t else (x :: h) :: t

/-- The `allLines.pop()` step of the log handlers: drop the final entry
when it is the empty line produced by a trailing newline. -/
def popTrailingEmpty (l : List (List Char)) : List (List Char) :=
  if l.getLast? = some [] then l.dropLast else l

/-- The line list both log handlers work on: split the raw log on
newlines and drop a single trailing empty line. -/
def logLines (raw : List Char) : List (List Char) :=
  popTrailingEmpty (splitOnChar '\n' raw)

/-- Maximum window size of the pager (`MAX_LOG_LINES`). -/
def MAX_LOG_LINES : Nat := 10000

/-- JavaScript `Array.prototype.slice(start, end)` for the in-range
non-negative indices produced by the pager. -/
def jsSlice (xs : List (List Char)) (a b : Int) : List (List Char) :=
  ((xs.drop a.toNat).take (b - a).toNat)

/-- Result shape of the `getBuildLog` handler (`BuildLogResponse`). -/
structure BuildLogResponse where
  hasMoreContent : Bool
  lines : List (List Char)
  totalLines : Nat
  startLine : Int
  endLine : Int
  deriving Repr, DecidableEq

/-- The `startLine` / `endLine` computation of the `getBuildLog`
handler, mirroring its `if (skip !== undefined && skip < 0)` branches.
`skip = none` is an omitted `skip` (so `skip ?? 0` is 0). -/
def pagerBounds (totalLines effectiveLimit : Nat) (skip : Option Int) : Int × Int :=
  match skip with
  | some s =>
    if s < 0 then
      (max 0 (max 0 ((totalLines : Int) + s) - (effectiveLimit : Int)),
        max 0 ((totalLines : Int) + s))
    else
      (s, min (totalLines : Int) (s + (effectiveLimit : Int)))
  | none => (0, min (totalLines : Int) ((effectiveLimit : Int)))

/-- The paging core of the `getBuildLog` handler: split the raw log,
drop the trailing empty line, clamp the limit to `MAX_LOG_LINES`, and
slice the requested window. -/
def getBuildLogWindow (raw : List Char) (skip : Option Int) (limit : Int) :
    BuildLogResponse :=
  let allLines := logLines raw
  let totalLines : Nat := allLines.length
  let effectiveLimit : Nat := min limit.natAbs MAX_LOG_LINES
  let sl := pagerBounds totalLines effectiveLimit skip
  { hasMoreContent := sl.2 < (totalLines : Int)
    lines := jsSlice allLines sl.1 sl.2
    totalLines := totalLines
    startLine := sl.1
    endLine := sl.2 }

/-- Maximum number of returned matches (`MAX_SEARCH_MATCHES`). -/
def MAX_SEARCH_MATCHES : Nat := 1000

/-- A single search hit of the `searchBuildLog` handler (`SearchMatch`). -/
structure SearchMatch where
  lineNumber : Nat
  line : List Char
  contextBefore : List (List Char)
  contextAfter : List (List Char)
  deriving Repr, DecidableEq

/-- Result shape of the `searchBuildLog` handler (`SearchLogResponse`),
restricted to the fields the searcher computes from the log. -/

structure SearchLogResponse where
  matchCount : Nat
  hasMoreMatches : Bool
  totalLines : Nat
  /-- The source's `matches` field (`matches` is a Lean keyword). -/
  matchList : List SearchMatch
  deriving Repr, DecidableEq

/-- The match record pushed for line `i` (0-based) of `all`:
1-indexed line number and the context slices
`allLines.slice(max(0, i - contextLines), i)` and
`allLines.slice(i + 1, min(totalLines, i + contextLines + 1))`
(`Math.max(0, ·)` is Nat truncated subtraction here). -/
def mkSearchMatch (all : List (List Char)) (contextLines i : Nat)
    (l : List Char) : SearchMatch :=
  let ctxStart : Nat := i - contextLines
  let ctxEnd : Nat := min all.length (i + contextLines + 1)
  { lineNumber := i + 1
    line := l
    contextBefore := (all.drop ctxStart).take (i - ctxStart)
    contextAfter := (all.drop (i + 1)).take (ctxEnd - (i + 1)) }

/-- The scan loop of the `searchBuildLog` handler.  `all` is the full
line list (for context slices), the first explicit argument the
not-yet-scanned suffix starting at index `i`; `count` and `ms`
accumulate `matchCount` and `matches`.  The per-line test
`regex.test(allLines[i])` is modelled by the injected predicate `p`
(the compiled literal or regex pattern). -/
def searchGo (all : List (List Char)) (p : List Char → Bool)
    (maxMatches contextLines : Nat) :
    List (List Char) → Nat → Nat → List SearchMatch → Nat × List SearchMatch
  | [], _, count, ms => (count, ms)
  | l :: rest, i, count, ms =>
    if p l then
      let ms' :=
        if ms.length < maxMatches then ms ++ [mkSearchMatch all contextLines i l]
        else ms
      searchGo all p maxMatches contextLines rest (i + 1) (count + 1) ms'
    else
      searchGo all p maxMatches contextLines rest (i + 1) count ms

/-- The search core of the `searchBuildLog` handler: split the raw log,
drop the trailing empty line, scan every line against the pattern
predicate `p`, cap the returned matches at `maxMatches`, and set
`hasMoreMatches := matchCount > maxMatches` exactly as the source does. -/
def searchBuildLog (raw : List Char) (p : List Char → Bool)
    (maxMatches contextLines : Nat) : SearchLogResponse :=
  let allLines := logLines raw
  let r := searchGo allLines p maxMatches contextLines allLines 0 0 []
  { matchCount := r.1
    hasMoreMatches := r.1 > maxMatches
    totalLines := allLines.length
    matchList := r.2 }

/-- Boolean prefix test on character lists (for concrete pattern
predicates in examples and witnesses). -/
def listStartsWith : List Char → List Char → Bool
  | [], _ => true
  | _ :: _, [] => false
  | a :: as, b :: bs => a == b && listStartsWith as bs

/-- Boolean substring test on character lists: does `l` contain `pat`
as a contiguous subsequence?  Models the effect of testing a line
against an escaped-literal pattern. -/
def listContainsSub (pat : List Char) : List Char → Bool
  | [] => listStartsWith pat []
  | l@(_ :: rest) => listStartsWith pat l || listContainsSub pat rest

/-- The specification-side list of matching lines: the 1-indexed
matching `(lineNumber, line)` pairs of `all`, in scan order. -/
def matchingLines (all : List (List Char)) (p : List Char → Bool) :
    List (Nat × List Char) :=
  (all.enum.filter (fun q => p q.2)).map (fun q => (q.1 + 1, q.2))

/-- The capped match list the scan loop produces: the records of the
first `budget` matching lines of `rest`, whose 0-based global indices
start at `i`. -/
def mkMatches (all : List (List Char)) (p : List Char → Bool)
    (contextLines : Nat) : List (List Char) → Nat → Nat → List SearchMatch
  | [], _, _ => []
  | l :: rest, i, budget =>
    if p l then
      match budget with
      | 0 => []
      | b + 1 => mkSearchMatch all contextLines i l :: mkMatches all p contextLines rest (i + 1) b
    else mkMatches all p contextLines rest (i + 1) budget

/-- The last `m` elements of a line list. -/
def lastN (xs : List (List Char)) (m : Nat) : List (List Char) :=
  xs.drop (xs.length - m)

/-- Concatenation of log lines with newline separators (the round-trip
reading of a line window). -/
def joinLines : List (List Char) → List Char
  | [] => []
  | [l] => l
  | l :: ls => l ++ '\n' :: joinLines ls

/-- A raw log of 10001 `"a"` lines, each terminated by a newline — one
more line than the pager's maximum window size. -/
def bigLogRaw : List Char := (List.replicate 10001 ['a', '\n']).flatten

/-! ### Resilient HTTP client (`src/jenkins/client.ts`) -/

/-- The part of a `fetch` `Response` the client consumes: status code,
body text (`response.text()` / `response.json()` input), `statusText`,
and response headers. -/
structure HttpResponse where
  status : Nat
  body : String
  statusText : String
  headers : List (String × String)
  deriving Repr, DecidableEq

/-- Outcome of one transport attempt: a response, a network-level
exception, a `DOMException` named `AbortError` (the only exception the
source's retry guard `error instanceof DOMException &&
error.name === "AbortError"` rethrows), or the `DOMException` named
`TimeoutError` that `AbortSignal.timeout` raises on the required
Node ≥ 20 runtime when the per-request timeout fires.  The guard's
name check does not match `TimeoutError`, so a real per-request
timeout is handled by the generic catch path, not the rethrow. -/
inductive Attempt where
  | ok (r : HttpResponse)
  | netError
  | abortError
  | timeoutError
  deriving Repr, DecidableEq

/-- `RETRYABLE_STATUS_CODES = {429, 500, 502, 503, 504}`. -/
def retryableStatus (s : Nat) : Bool :=
  s == 429 || s == 500 || s == 502 || s == 503 || s == 504

/-- `Response.ok`: status in the range 200–299. -/
def respOk (s : Nat) : Bool := 200 ≤ s && s < 300

/-- `JenkinsClientError`: message, HTTP status code, raw response body. -/
structure JenkinsClientError where
  message : String
  statusCode : Nat
  jenkinsBody : String
  deriving Repr, DecidableEq

/-- The `AuthFailed` error built by `handleError` for 401/403, whose
message carries the hint to check credentials. -/
def authFailedError (st : Nat) (body : String) : JenkinsClientError :=
  ⟨s!"Authentication failed ({st}). Check your Jenkins URL, username, and API token.",
    st, body⟩

/-- The `NotFound` error built by `handleError` for 404. -/
def notFoundError (url : String) (st : Nat) (body : String) : JenkinsClientError :=
  ⟨s!"Resource not found: {url}", st, body⟩

/-- The `ServerError` built by `handleError` for any other non-2xx
status, carrying the final status and response body (`statusText`
substitutes for an empty body in the message). -/
def serverError (st : Nat) (body statusText : String) : JenkinsClientError :=
  let bodyText := if body.isEmpty then statusText else body
  ⟨s!"Jenkins API error ({st}): {bodyText}", st, body⟩

/-- `JenkinsClient.handleError`: classify a non-2xx response. -/
def handleError (r : HttpResponse) (url : String) : JenkinsClientError :=
  if r.status == 401 || r.status == 403 then authFailedError r.status r.body
  else if r.status == 404 then notFoundError url r.status r.body
  else serverError r.status r.body r.statusText

/-- Client configuration after the constructor applied the defaults
(`maxRetries ?? 3`, `retryDelay ?? 1000`). -/
structure JenkinsClientConfig where
  maxRetries : Nat := 3
  retryDelay : Nat := 1000
  deriving Repr, DecidableEq

/-- `computeBackoff`: `min(retryDelay * 2^attempt + jitter, 30000)`;
the `Math.random()` jitter is injected as a function of the attempt. -/
def computeBackoff (retryDelay : Nat) (jitter : Nat → Nat) (attempt : Nat) : Nat :=
  min (retryDelay * 2 ^ attempt + jitter attempt) 30000

/-- Result of `fetchWithRetry`: the returned response, a network error
thrown as `lastError` after the budget is exhausted, an `AbortError`
rethrown immediately by the guard, or a `TimeoutError` thrown as
`lastError` after the budget is exhausted (the guard does not rethrow
it). -/
inductive FetchResult where
  | resp (r : HttpResponse)
  | netThrown
  | abortThrown
  | timeoutThrown
  deriving Repr, DecidableEq

/-- A `fetchWithRetry` run together with its observable trace: how many
transport attempts were made and which backoff delays were slept. -/
structure RetryOutcome where
  result : FetchResult
  attempts : Nat
  delays : List Nat
  deriving Repr, DecidableEq

/-- The loop body of `fetchWithRetry`.  The source iterates `attempt`
from `0` to `maxRetries` with retry guard `attempt < maxRetries`; here
`gas = maxRetries - attempt`, so the guard is `gas > 0`.  A retryable
status consumes a backoff delay and retries; an exception is rethrown
immediately only when it is a `DOMException` named `AbortError` — a
network error, and equally the `TimeoutError` raised by the
per-request `AbortSignal.timeout`, take the generic catch path:
backoff and retry while gas remains, `throw lastError` when it runs
out; otherwise the response is returned as-is. -/
def fetchGo (retryDelay : Nat) (t : Nat → Attempt) (jitter : Nat → Nat) :
    Nat → Nat → RetryOutcome
  | attempt, gas =>
    match t attempt, gas with
    | .ok r, g + 1 =>
      if retryableStatus r.status then
        let d := computeBackoff retryDelay jitter attempt
        let rest := fetchGo retryDelay t jitter (attempt + 1) g
        ⟨rest.result, rest.attempts + 1, d :: rest.delays⟩
      else ⟨.resp r, 1, []⟩
    | .ok r, 0 => ⟨.resp r, 1, []⟩
    | .abortError, _ => ⟨.abortThrown, 1, []⟩
    | .netError, g + 1 =>
      let d := computeBackoff retryDelay jitter attempt
      let rest := fetchGo retryDelay t jitter (attempt + 1) g
      ⟨rest.result, rest.attempts + 1, d :: rest.delays⟩
    | .netError, 0 => ⟨.netThrown, 1, []⟩
    | .timeoutError, g + 1 =>
      let d := computeBackoff retryDelay jitter attempt
      let rest := fetchGo retryDelay t jitter (attempt + 1) g
      ⟨rest.result, rest.attempts + 1, d :: rest.delays⟩
    | .timeoutError, 0 => ⟨.timeoutThrown, 1, []⟩

/-- `JenkinsClient.fetchWithRetry`: run the attempt loop from attempt 0
with a budget of `maxRetries` retries. -/
def fetchWithRetry (cfg : JenkinsClientConfig) (t : Nat → Attempt)
    (jitter : Nat → Nat) : RetryOutcome :=
  fetchGo cfg.retryDelay t jitter 0 cfg.maxRetries

/-- Outcome of one client verb: a success payload, a typed
`JenkinsClientError`, a propagated network failure, a surfaced
per-request timeout (`TimeoutError`), or a rethrown `AbortError`. -/
inductive VerbOutcome (α : Type) where
  | success (a : α)
  | error (e : JenkinsClientError)
  | netFailure
  | timeout
  | aborted
  deriving Repr, DecidableEq

/-- `response.headers.get(name)`. -/
def getHeader (headers : List (String × String)) (name : String) : Option String :=
  (headers.find? (fun p => p.1 == name)).map Prod.snd

/-- `JenkinsClient.request` (the JSON GET verb): fetch with retry, call
`handleError` on a non-ok response, otherwise succeed.  The JSON
parsing of the success body is not modelled: the success payload is
the raw body text. -/
def requestJson (cfg : JenkinsClientConfig) (t : Nat → Attempt)
    (jitter : Nat → Nat) (url : String) : VerbOutcome String × Nat × List Nat :=
  let f := fetchWithRetry cfg t jitter
  match f.result with
  | .resp r =>
    if respOk r.status then (.success r.body, f.attempts, f.delays)
    else (.error (handleError r url), f.attempts, f.delays)
  | .netThrown => (.netFailure, f.attempts, f.delays)
  | .abortThrown => (.aborted, f.attempts, f.delays)
  | .timeoutThrown => (.timeout, f.attempts, f.delays)

/-- `JenkinsClient.requestText` (the raw-text GET verb). -/
def requestText (cfg : JenkinsClientConfig) (t : Nat → Attempt)
    (jitter : Nat → Nat) (url : String) : VerbOutcome String × Nat × List Nat :=
  let f := fetchWithRetry cfg t jitter
  match f.result with
  | .resp r =>
    if respOk r.status then (.success r.body, f.attempts, f.delays)
    else (.error (handleError r url), f.attempts, f.delays)
  | .netThrown => (.netFailure, f.attempts, f.delays)
  | .abortThrown => (.aborted, f.attempts, f.delays)
  | .timeoutThrown => (.timeout, f.attempts, f.delays)

/-- `JSON.parse` of a non-empty 2xx POST body, abstracted: the model
treats the parse as succeeding and carries the raw text (a parse
failure yields `data = null` in the source, still a success). -/
def jsonParse (s : String) : Option String := some s

/-- `JenkinsClient.post`: 201/302 succeed with the `Location` header;
other non-2xx go through `handleError`; an empty 2xx body yields
`data = null`. -/
def postRequest (cfg : JenkinsClientConfig) (t : Nat → Attempt)
    (jitter : Nat → Nat) (url : String) :
    VerbOutcome (Option String × Option String) × Nat × List Nat :=
  let f := fetchWithRetry cfg t jitter
  match f.result with
  | .resp r =>
    let location := getHeader r.headers "Location"
    if r.status == 201 || r.status == 302 then
      (.success (none, location), f.attempts, f.delays)
    else if !respOk r.status then
      (.error (handleError r url), f.attempts, f.delays)
    else if r.body.isEmpty then
      (.success (none, location), f.attempts, f.delays)
    else
      (.success (jsonParse r.body, location), f.attempts, f.delays)
  | .netThrown => (.netFailure, f.attempts, f.delays)
  | .abortThrown => (.aborted, f.attempts, f.delays)
  | .timeoutThrown => (.timeout, f.attempts, f.delays)

/-- `JenkinsClient.head`: fetch with retry and return the raw status
and headers without error translation. -/
def headRequest (cfg : JenkinsClientConfig) (t : Nat → Attempt)
    (jitter : Nat → Nat) :
    VerbOutcome (Nat × List (String × String)) × Nat × List Nat :=
  let f := fetchWithRetry cfg t jitter
  match f.result with
  | .resp r => (.success (r.status, r.headers), f.attempts, f.delays)
  | .netThrown => (.netFailure, f.attempts, f.delays)
  | .abortThrown => (.aborted, f.attempts, f.delays)
  | .timeoutThrown => (.timeout, f.attempts, f.delays)

/-- `JenkinsClient.getTextWithHeaders` (from `src/jenkins/client.ts`):
a single direct `fetch` — it does not go through `fetchWithRetry` —
with `handleError` on a non-ok response. -/
def getTextWithHeaders (t : Nat → Attempt) (url : String) :
    VerbOutcome (String × List (String × String)) × Nat × List Nat :=
  match t 0 with
  | .ok r =>
    if respOk r.status then (.success (r.body, r.headers), 1, [])
    else (.error (handleError r url), 1, [])
  | .netError => (.netFailure, 1, [])
  | .abortError => (.aborted, 1, [])
  | .timeoutError => (.timeout, 1, [])

/-- The typed verbs of the client that go through `fetchWithRetry`. -/
inductive Verb where
  | get
  | getText
  | post
  | head
  deriving Repr, DecidableEq

/-- A verb outcome with the success payload erased, for statements
quantified over all verbs. -/
inductive RunResult where
  | success
  | error (e : JenkinsClientError)
  | netFailure
  | timeout
  | aborted
  deriving Repr, DecidableEq

/-- Erase the success payload of a verb outcome. -/
def VerbOutcome.classify {α : Type} : VerbOutcome α → RunResult
  | .success _ => .success
  | .error e => .error e
  | .netFailure => .netFailure
  | .timeout => .timeout
  | .aborted => .aborted

/-- Run one verb of the retrying client and report the payload-erased
outcome, the number of transport attempts, and the slept delays. -/
def runVerb (v : Verb) (cfg : JenkinsClientConfig) (t : Nat → Attempt)
    (jitter : Nat → Nat) (url : String) : RunResult × Nat × List Nat :=
  match v with
  | .get => let r := requestJson cfg t jitter url; (r.1.classify, r.2.1, r.2.2)
  | .getText => let r := requestText cfg t jitter url; (r.1.classify, r.2.1, r.2.2)
  | .post => let r := postRequest cfg t jitter url; (r.1.classify, r.2.1, r.2.2)
  | .head => let r := headRequest cfg t jitter; (r.1.classify, r.2.1, r.2.2)

/-! ### Request URL construction (`JenkinsClient` constructor) -/

/-- The constructor's `config.baseUrl.replace(/\/+$/, "")`: remove the
maximal run of trailing `'/'` characters. -/
def dropTrailingSlashes (s : List Char) : List Char :=
  (s.reverse.dropWhile (fun c => c == '/')).reverse

/-- The request URL every verb builds:
`this.baseUrl + path + qs`, where `this.baseUrl` is the configured base
address with trailing slashes stripped.  The query string `qs` is built
by `buildQueryString` from the query parameters alone, so it is passed
through here. -/
def clientUrl (configuredBase path qs : List Char) : List Char :=
  dropTrailingSlashes configuredBase ++ path ++ qs

/-! ### SCM URL normalization (`looselyMatchesUrl`, `src/tools/scm.ts`) -/

/-- Boolean suffix test on character lists. -/
def listEndsWith (suf l : List Char) : Bool :=
  listStartsWith suf.reverse l.reverse

/-- `replace(/\.git$/, "")`: strip one trailing `.git`. -/
def stripDotGit (l : List Char) : List Char :=
  if listEndsWith ".git".toList l then l.take (l.length - 4) else l

/-- `replace(/^(https?|git|ssh):\/\//, "")`: strip the URL scheme. -/
def stripScheme (l : List Char) : List Char :=
  if listStartsWith "http://".toList l then l.drop 7
  else if listStartsWith "https://".toList l then l.drop 8
  else if listStartsWith "git://".toList l then l.drop 6
  else if listStartsWith "ssh://".toList l then l.drop 6
  else l

/-- `replace(/^[^@]+@/, "")`: strip a leading `user@` authentication
prefix (at least one non-`@` character followed by the first `@`). -/
def stripUserAt (l : List Char) : List Char :=
  let pre := l.takeWhile (fun c => c ≠ '@')
  if 0 < pre.length ∧ pre.length < l.length then l.drop (pre.length + 1) else l

/-- `replace(/:/, "/")` (no `g` flag): replace the first colon. -/
def replaceFirstColon : List Char → List Char
  | [] => []
  | c :: rest => if c = ':' then '/' :: rest else c :: replaceFirstColon rest

/-- The `normalize` closure of `looselyMatchesUrl`: strip `.git`, then
trailing slashes, then the scheme, then `user@`, then collapse the
first `:` to `/`, then lower-case (ASCII, as in these URL inputs). -/
def normalizeUrl (u : List Char) : List Char :=
  (replaceFirstColon (stripUserAt (stripScheme
    (dropTrailingSlashes (stripDotGit u))))).map Char.toLower

/-- `looselyMatchesUrl`: normalized equality of two SCM URLs. -/
def looselyMatchesUrl (configuredUrl targetUrl : List Char) : Bool :=
  normalizeUrl configuredUrl == normalizeUrl targetUrl

/-! ### Fixtures for witnesses and counterexamples -/

/-- Does an attempt outcome take the retry path of `fetchWithRetry`
(a retryable status, a network-level error, or the unrecognized
`TimeoutError` — everything except a rethrown `AbortError`)? -/
def attemptRetries : Attempt → Bool
  | .ok r => retryableStatus r.status
  | .netError => true
  | .abortError => false
  | .timeoutError => true

/-- A concrete 503 response. -/
def resp503 : HttpResponse :=
  { status := 503, body := "unavailable", statusText := "Service Unavailable",
    headers := [] }

/-- A concrete 200 response. -/
def resp200 : HttpResponse :=
  { status := 200, body := "payload", statusText := "OK", headers := [] }

/-- A concrete 404 response. -/
def resp404 : HttpResponse :=
  { status := 404, body := "missing", statusText := "Not Found", headers := [] }

/-- A transport whose every attempt returns 503. -/
def transportAll503 : Nat → Attempt := fun _ => .ok resp503

/-- A transport that returns 503 on the first attempt and 200 after. -/
def transport503Then200 : Nat → Attempt
  | 0 => .ok resp503
  | _ + 1 => .ok resp200

/-- A transport that returns 404 on every attempt. -/
def transportAll404 : Nat → Attempt := fun _ => .ok resp404

/-- A transport whose first attempt raises a `DOMException` named
`AbortError` (the only exception the retry guard rethrows). -/
def transportAbort : Nat → Attempt := fun _ => .abortError

/-- A transport whose every attempt is aborted by the per-request
timeout: `AbortSignal.timeout` raises a `TimeoutError`. -/
def transportAllTimeout : Nat → Attempt := fun _ => .timeoutError

/-- A transport timed out on the first attempt and answering 200
after. -/
def transportTimeoutThen200 : Nat → Attempt
  | 0 => .timeoutError
  | _ + 1 => .ok resp200

/-- The zero jitter function (`Math.random()` returning 0). -/
def zeroJitter : Nat → Nat := fun _ => 0

/-! ### Supporting lemmas -/

/-- `splitOnChar` never returns the empty list. -/
theorem splitOnChar_ne_nil (c : Char) (l : List Char) : splitOnChar c l ≠ [] := by
  cases l with
  | nil => simp [splitOnChar]
  | cons x xs =>
    simp only [splitOnChar]
    cases h : splitOnChar c xs with
    | nil => simp
    | cons h t =>
      by_cases hx : x = c <;> simp [hx]

example :
    getBuildLogWindow ("L0\nL1\nL2\nL3\nL4\n".toList) (some 1) 2 =
      { hasMoreContent := true
        lines := ["L1".toList, "L2".toList]
        totalLines := 5
        startLine := 1
        endLine := 3 } := by decide

example :
    (searchBuildLog ("a\nERROR x\nb\nERROR y\nc\n".toList)
        (listContainsSub "ERROR".toList) 100 0).matchCount = 2 := by
  decide

example :
    (searchBuildLog ("a\nERROR x\nb\nERROR y\nc\n".toList)
        (listContainsSub "ERROR".toList) 100 0).matchList.map
      SearchMatch.lineNumber = [2, 4] := by decide

example :
    normalizeUrl "git@host:org/repo.git".toList = "host/org/repo".toList := by
  decide

example :
    normalizeUrl "https://host/org/repo.git/".toList =
      "host/org/repo.git".toList := by decide

theorem dropWhile_replicate_append {p : Char → Bool} {c : Char} (hc : p c = true)
    (k : Nat) (xs : List Char) :
    List.dropWhile p (List.replicate k c ++ xs) = List.dropWhile p xs := by
  induction k with
  | zero => simp
  | succ n ih => simp [List.replicate_succ, List.dropWhile, hc, ih]

theorem dropTrailingSlashes_append_replicate (b : List Char) (k : Nat) :
    dropTrailingSlashes (b ++ List.replicate k '/') = dropTrailingSlashes b := by
  unfold dropTrailingSlashes
  rw [List.reverse_append, List.reverse_replicate,
    dropWhile_replicate_append (by decide) k b.reverse]

theorem jsSlice_eq_nil (xs : List (List Char)) {a b : Int} (h : b ≤ a) :
    jsSlice xs a b = [] := by
  have h0 : (b - a).toNat = 0 := by omega
  simp [jsSlice, h0]

theorem getBuildLogWindow_startLine (raw : List Char) (skip : Option Int) (limit : Int) :
    (getBuildLogWindow raw skip limit).startLine =
      (pagerBounds (logLines raw).length (min limit.natAbs MAX_LOG_LINES) skip).1 := rfl

theorem getBuildLogWindow_endLine (raw : List Char) (skip : Option Int) (limit : Int) :
    (getBuildLogWindow raw skip limit).endLine =
      (pagerBounds (logLines raw).length (min limit.natAbs MAX_LOG_LINES) skip).2 := rfl

theorem getBuildLogWindow_totalLines (raw : List Char) (skip : Option Int) (limit : Int) :
    (getBuildLogWindow raw skip limit).totalLines = (logLines raw).length := rfl

theorem getBuildLogWindow_hasMoreContent (raw : List Char) (skip : Option Int) (limit : Int) :
    (getBuildLogWindow raw skip limit).hasMoreContent =
      decide ((pagerBounds (logLines raw).length (min limit.natAbs MAX_LOG_LINES) skip).2 <
        ((logLines raw).length : Int)) := rfl

theorem getBuildLogWindow_lines (raw : List Char) (skip : Option Int) (limit : Int) :
    (getBuildLogWindow raw skip limit).lines =
      jsSlice (logLines raw)
        (pagerBounds (logLines raw).length (min limit.natAbs MAX_LOG_LINES) skip).1
        (pagerBounds (logLines raw).length (min limit.natAbs MAX_LOG_LINES) skip).2 := rfl

theorem joinLines_cons_cons (x : Char) (h : List Char) (t : List (List Char)) :
    joinLines ((x :: h) :: t) = x :: joinLines (h :: t) := by
  cases t <;> simp [joinLines]

theorem splitOnChar_cons_self (c : Char) (l : List Char) :
    splitOnChar c (c :: l) = [] :: splitOnChar c l := by
  simp only [splitOnChar]
  cases hsp : splitOnChar c l with
  | nil => exact absurd hsp (splitOnChar_ne_nil _ _)
  | cons a b => simp

theorem splitOnChar_cons_of_ne (c x : Char) (l : List Char) (hx : x ≠ c)
    (h : List Char) (t : List (List Char)) (hl : splitOnChar c l = h :: t) :
    splitOnChar c (x :: l) = (x :: h) :: t := by
  simp only [splitOnChar, hl]
  simp [hx]

/-- Joining the newline-split of a text reproduces the text. -/
theorem joinLines_splitOnChar (l : List Char) :
    joinLines (splitOnChar '\n' l) = l := by
  induction l with
  | nil => rfl
  | cons x xs ih =>
    obtain ⟨h, t, hr⟩ : ∃ h t, splitOnChar '\n' xs = h :: t := by
      cases hsp : splitOnChar '\n' xs with
      | nil => exact absurd hsp (splitOnChar_ne_nil _ _)
      | cons a b => exact ⟨a, b, rfl⟩
    rw [hr] at ih
    by_cases hx : x = '\n'
    · subst hx
      rw [splitOnChar_cons_self, hr]
      simpa [joinLines] using ih
    · rw [splitOnChar_cons_of_ne '\n' x xs hx h t hr, joinLines_cons_cons, ih]

theorem joinLines_append_nil_singleton (a : List Char) (t : List (List Char)) :
    joinLines ((a :: t) ++ [[]]) = joinLines (a :: t) ++ ['\n'] := by
  induction t generalizing a with
  | nil => simp [joinLines]
  | cons b ts ih =>
    have h2 : joinLines (a :: b :: (ts ++ [[]])) =
        a ++ '\n' :: joinLines (b :: (ts ++ [[]])) := by simp [joinLines]
    have h3 : joinLines (a :: b :: ts) = a ++ '\n' :: joinLines (b :: ts) := by
      simp [joinLines]
    have h4 := ih b
    simp only [List.cons_append] at h4 ⊢
    rw [h2, h4, h3]
    simp

theorem splitOnChar_flatten_replicate (m : Nat) :
    splitOnChar '\n' ((List.replicate m ['a', '\n']).flatten) =
      List.replicate m ['a'] ++ [[]] := by
  induction m with
  | zero => simp [splitOnChar]
  | succ n ih =>
    rw [List.replicate_succ, List.flatten_cons]
    have h1 : ['a', '\n'] ++ (List.replicate n ['a', '\n']).flatten =
        'a' :: '\n' :: (List.replicate n ['a', '\n']).flatten := rfl
    rw [h1]
    have h2 := splitOnChar_cons_self '\n' ((List.replicate n ['a', '\n']).flatten)
    rw [ih] at h2
    rw [splitOnChar_cons_of_ne '\n' 'a' _ (by decide) _ _ h2]
    simp [List.replicate_succ]

theorem logLines_bigLogRaw : logLines bigLogRaw = List.replicate 10001 ['a'] := by
  unfold logLines bigLogRaw popTrailingEmpty
  rw [splitOnChar_flatten_replicate, List.getLast?_concat, if_pos rfl]
  exact List.dropLast_concat

theorem joinLines_replicate_length :
    ∀ m : Nat, (joinLines (List.replicate m ['a'])).length = 2 * m - 1
  | 0 => rfl
  | 1 => rfl
  | (m + 2) => by
    have h1 : List.replicate (m + 2) ['a'] =
        ['a'] :: List.replicate (m + 1) ['a'] := by rw [List.replicate_succ]
    have h2 : List.replicate (m + 1) ['a'] = ['a'] :: List.replicate m ['a'] := by
      rw [List.replicate_succ]
    rw [h1]
    have h3 : joinLines (['a'] :: List.replicate (m + 1) ['a']) =
        ['a'] ++ '\n' :: joinLines (List.replicate (m + 1) ['a']) := by
      rw [h2]
      simp [joinLines]
    rw [h3]
    have ih := joinLines_replicate_length (m + 1)
    simp only [List.length_append, List.length_cons, List.length_nil, ih]
    omega

theorem flatten_replicate_length (l : List Char) :
    ∀ m : Nat, ((List.replicate m l).flatten).length = m * l.length := by
  intro m
  induction m with
  | zero => simp
  | succ n ih =>
    rw [List.replicate_succ, List.flatten_cons, List.length_append, ih]
    ring

theorem mkMatches_budget_zero (all : List (List Char)) (p : List Char → Bool)
    (ctx : Nat) : ∀ (rest : List (List Char)) (i : Nat),
    mkMatches all p ctx rest i 0 = [] := by
  intro rest
  induction rest with
  | nil => intro i; rfl
  | cons l rest ih =>
    intro i
    cases hl : p l with
    | true => simp [mkMatches, hl]
    | false => simp [mkMatches, hl, ih]

theorem searchGo_fst (all : List (List Char)) (p : List Char → Bool)
    (maxM ctx : Nat) :
    ∀ (rest : List (List Char)) (i count : Nat) (ms : List SearchMatch),
    (searchGo all p maxM ctx rest i count ms).1 = count + rest.countP p := by
  intro rest
  induction rest with
  | nil => intro i count ms; simp [searchGo]
  | cons l rest ih =>
    intro i count ms
    cases hl : p l with
    | true =>
      simp only [searchGo, hl, if_true]
      rw [ih, List.countP_cons]
      simp [hl]
      omega
    | false =>
      simp only [searchGo, hl, Bool.false_eq_true, if_false]
      rw [ih, List.countP_cons]
      simp [hl]

theorem searchGo_snd (all : List (List Char)) (p : List Char → Bool)
    (maxM ctx : Nat) :
    ∀ (rest : List (List Char)) (i count : Nat) (ms : List SearchMatch),
    (searchGo all p maxM ctx rest i count ms).2 =
      ms ++ mkMatches all p ctx rest i (maxM - ms.length) := by
  intro rest
  induction rest with
  | nil => intro i count ms; simp [searchGo, mkMatches]
  | cons l rest ih =>
    intro i count ms
    cases hl : p l with
    | true =>
      simp only [searchGo, hl, if_true]
      by_cases hlen : ms.length < maxM
      · rw [if_pos hlen, ih]
        obtain ⟨b, hb⟩ : ∃ b, maxM - ms.length = b + 1 :=
          ⟨maxM - ms.length - 1, by omega⟩
        have hb2 : maxM - (ms ++ [mkSearchMatch all ctx i l]).length = b := by
          simp only [List.length_append, List.length_cons, List.length_nil]
          omega
        rw [hb2, List.append_assoc]
        simp only [mkMatches, hl, if_true, hb]
        rfl
      · rw [if_neg hlen, ih]
        have h0 : maxM - ms.length = 0 := by omega
        rw [h0, mkMatches_budget_zero]
        simp [mkMatches, hl, h0]
    | false =>
      simp only [searchGo, hl, Bool.false_eq_true, if_false]
      rw [ih]
      congr 1
      simp [mkMatches, hl]

theorem mkMatches_map_spec (all : List (List Char)) (p : List Char → Bool)
    (ctx : Nat) :
    ∀ (rest : List (List Char)) (i b : Nat),
    (mkMatches all p ctx rest i b).map (fun m => (m.lineNumber, m.line)) =
      (((List.enumFrom i rest).filter (fun q => p q.2)).map
        (fun q => (q.1 + 1, q.2))).take b := by
  intro rest
  induction rest with
  | nil => intro i b; simp [mkMatches, List.enumFrom]
  | cons l rest ih =>
    intro i b
    cases hl : p l with
    | true =>
      cases b with
      | zero => simp [mkMatches, hl]
      | succ b' =>
        simp only [mkMatches, hl, if_true, List.enumFrom, List.filter, List.map,
          List.take, List.map_cons]
        rw [ih]
        rfl
    | false =>
      simp only [mkMatches, hl, List.enumFrom, List.filter, Bool.false_eq_true,
        if_false]
      rw [ih]

theorem enumFrom_filter_length (p : List Char → Bool) :
    ∀ (rest : List (List Char)) (i : Nat),
    ((List.enumFrom i rest).filter (fun q => p q.2)).length = rest.countP p := by
  intro rest
  induction rest with
  | nil => intro i; rfl
  | cons l rest ih =>
    intro i
    cases hl : p l with
    | true =>
      simp only [List.enumFrom, List.filter, hl, List.countP_cons]
      simp [hl, ih]
    | false =>
      simp only [List.enumFrom, List.filter, hl, List.countP_cons]
      simp [hl, ih]

theorem retryable_cases (s : Nat) (h : retryableStatus s = true) :
    s = 429 ∨ s = 500 ∨ s = 502 ∨ s = 503 ∨ s = 504 := by
  simp only [retryableStatus, Bool.or_eq_true, beq_iff_eq] at h
  omega

/-- Unfolding of one loop step on a retryable response with gas left. -/
theorem fetchGo_eq_of_ok_retryable (rd : Nat) (t : Nat → Attempt)
    (jitter : Nat → Nat) (a g : Nat) (r : HttpResponse) (h : t a = .ok r)
    (hret : retryableStatus r.status = true) :
    fetchGo rd t jitter a (g + 1) =
      ⟨(fetchGo rd t jitter (a + 1) g).result,
        (fetchGo rd t jitter (a + 1) g).attempts + 1,
        computeBackoff rd jitter a :: (fetchGo rd t jitter (a + 1) g).delays⟩ := by
  conv_lhs => unfold fetchGo
  rw [h]
  simp [hret]

/-- Unfolding of one loop step on a network error with gas left. -/
theorem fetchGo_eq_of_netError (rd : Nat) (t : Nat → Attempt)
    (jitter : Nat → Nat) (a g : Nat) (h : t a = .netError) :
    fetchGo rd t jitter a (g + 1) =
      ⟨(fetchGo rd t jitter (a + 1) g).result,
        (fetchGo rd t jitter (a + 1) g).attempts + 1,
        computeBackoff rd jitter a :: (fetchGo rd t jitter (a + 1) g).delays⟩ := by
  conv_lhs => unfold fetchGo
  rw [h]

/-- Unfolding of one loop step on a per-request timeout with gas left:
the `TimeoutError` is not rethrown, so the loop sleeps and retries. -/
theorem fetchGo_eq_of_timeoutError (rd : Nat) (t : Nat → Attempt)
    (jitter : Nat → Nat) (a g : Nat) (h : t a = .timeoutError) :
    fetchGo rd t jitter a (g + 1) =
      ⟨(fetchGo rd t jitter (a + 1) g).result,
        (fetchGo rd t jitter (a + 1) g).attempts + 1,
        computeBackoff rd jitter a :: (fetchGo rd t jitter (a + 1) g).delays⟩ := by
  conv_lhs => unfold fetchGo
  rw [h]

/-- A run of `f` retryable responses followed by a non-retryable
response within the budget: the loop returns that response after
`f + 1` attempts and `f` backoff sleeps. -/
theorem fetchGo_retryable_then_success (rd : Nat) (t : Nat → Attempt)
    (jitter : Nat → Nat) :
    ∀ (f a g : Nat) (r : HttpResponse),
    (∀ i, i < f → ∃ ri, t (a + i) = .ok ri ∧ retryableStatus ri.status = true) →
    t (a + f) = .ok r → retryableStatus r.status = false → f ≤ g →
    ∃ ds, fetchGo rd t jitter a g = ⟨.resp r, f + 1, ds⟩ ∧ ds.length = f
  | 0, a, g, r => by
    intro _ hf hnr _
    rw [Nat.add_zero] at hf
    refine ⟨[], ?_, rfl⟩
    unfold fetchGo
    cases g with
    | zero => rw [hf]
    | succ g' =>
      rw [hf]
      simp [hnr]
  | f + 1, a, g, r => by
    intro hpre hf hnr hfg
    obtain ⟨r0, hr0, hret0⟩ := hpre 0 (Nat.succ_pos f)
    rw [Nat.add_zero] at hr0
    obtain ⟨g', rfl⟩ : ∃ g', g = g' + 1 := ⟨g - 1, by omega⟩
    obtain ⟨ds, hds, hlen⟩ :=
      fetchGo_retryable_then_success rd t jitter f (a + 1) g' r
        (fun i hi => by
          obtain ⟨ri, h1, h2⟩ := hpre (i + 1) (by omega)
          exact ⟨ri, by rw [show a + 1 + i = a + (i + 1) by omega]; exact h1, h2⟩)
        (by rw [show a + 1 + f = a + (f + 1) by omega]; exact hf) hnr (by omega)
    refine ⟨computeBackoff rd jitter a :: ds, ?_, by simp [hlen]⟩
    rw [fetchGo_eq_of_ok_retryable rd t jitter a g' r0 hr0 hret0, hds]

/-- When every attempt within the budget returns a retryable status,
the loop returns the final attempt's response after `maxRetries + 1`
attempts and `maxRetries` backoff sleeps. -/
theorem fetchGo_all_retryable (rd : Nat) (t : Nat → Attempt)
    (jitter : Nat → Nat) :
    ∀ (g a : Nat),
    (∀ i, i ≤ g → ∃ ri, t (a + i) = .ok ri ∧ retryableStatus ri.status = true) →
    ∃ r ds, t (a + g) = .ok r ∧
      fetchGo rd t jitter a g = ⟨.resp r, g + 1, ds⟩ ∧ ds.length = g
  | 0, a => by
    intro hall
    obtain ⟨r, hr, hret⟩ := hall 0 (le_refl 0)
    rw [Nat.add_zero] at hr
    refine ⟨r, [], by rw [Nat.add_zero]; exact hr, ?_, rfl⟩
    unfold fetchGo
    rw [hr]
  | g + 1, a => by
    intro hall
    obtain ⟨r0, hr0, hret0⟩ := hall 0 (by omega)
    rw [Nat.add_zero] at hr0
    obtain ⟨r, ds, hr, hds, hlen⟩ :=
      fetchGo_all_retryable rd t jitter g (a + 1)
        (fun i hi => by
          obtain ⟨ri, h1, h2⟩ := hall (i + 1) (by omega)
          exact ⟨ri, by rw [show a + 1 + i = a + (i + 1) by omega]; exact h1, h2⟩)
    refine ⟨r, computeBackoff rd jitter a :: ds,
      by rw [show a + (g + 1) = a + 1 + g by omega]; exact hr, ?_, by simp [hlen]⟩
    rw [fetchGo_eq_of_ok_retryable rd t jitter a g r0 hr0 hret0, hds]

/-- An attempt aborted by the request timeout is rethrown immediately:
after `k` retried attempts, the abort at attempt `k` ends the loop with
`k + 1` attempts and no additional backoff sleep. -/
theorem fetchGo_abort (rd : Nat) (t : Nat → Attempt) (jitter : Nat → Nat) :
    ∀ (k a g : Nat), k ≤ g →
    (∀ i, i < k → attemptRetries (t (a + i)) = true) →
    t (a + k) = .abortError →
    ∃ ds, fetchGo rd t jitter a g = ⟨.abortThrown, k + 1, ds⟩ ∧ ds.length = k
  | 0, a, g => by
    intro _ _ habort
    rw [Nat.add_zero] at habort
    refine ⟨[], ?_, rfl⟩
    unfold fetchGo
    rw [habort]
  | k + 1, a, g => by
    intro hk hpre habort
    have hstep := hpre 0 (Nat.succ_pos k)
    rw [Nat.add_zero] at hstep
    obtain ⟨g', rfl⟩ : ∃ g', g = g' + 1 := ⟨g - 1, by omega⟩
    obtain ⟨ds, hds, hlen⟩ :=
      fetchGo_abort rd t jitter k (a + 1) g' (by omega)
        (fun i hi => by
          have h1 := hpre (i + 1) (by omega)
          rw [show a + 1 + i = a + (i + 1) by omega]
          exact h1)
        (by rw [show a + 1 + k = a + (k + 1) by omega]; exact habort)
    refine ⟨computeBackoff rd jitter a :: ds, ?_, by simp [hlen]⟩
    cases hta : t a with
    | ok r0 =>
      rw [hta] at hstep
      simp only [attemptRetries] at hstep
      rw [fetchGo_eq_of_ok_retryable rd t jitter a g' r0 hta hstep, hds]
    | netError =>
      rw [fetchGo_eq_of_netError rd t jitter a g' hta, hds]
    | abortError =>
      rw [hta] at hstep
      simp [attemptRetries] at hstep
    | timeoutError =>
      rw [fetchGo_eq_of_timeoutError rd t jitter a g' hta, hds]

/-- Every verb propagates the attempt count and delay list of
`fetchWithRetry` unchanged. -/
theorem runVerb_trace (v : Verb) (cfg : JenkinsClientConfig) (t : Nat → Attempt)
    (jitter : Nat → Nat) (url : String) :
    (runVerb v cfg t jitter url).2.1 = (fetchWithRetry cfg t jitter).attempts ∧
      (runVerb v cfg t jitter url).2.2 = (fetchWithRetry cfg t jitter).delays := by
  cases v <;>
    simp only [runVerb, requestJson, requestText, postRequest, headRequest] <;>
    rcases hres : (fetchWithRetry cfg t jitter).result with r | _ | _ | _ <;>
    simp only [hres] <;>
    constructor <;>
    first
      | trivial
      | (split_ifs <;> rfl)

/-- A 2xx (non-201/302) final response makes every verb succeed. -/
theorem runVerb_success_of_resp (v : Verb) (cfg : JenkinsClientConfig)
    (t : Nat → Attempt) (jitter : Nat → Nat) (url : String) (r : HttpResponse)
    (hres : (fetchWithRetry cfg t jitter).result = .resp r)
    (hok : respOk r.status = true) (h201 : r.status ≠ 201)
    (h302 : r.status ≠ 302) :
    (runVerb v cfg t jitter url).1 = .success := by
  cases v with
  | head => simp [runVerb, headRequest, hres, VerbOutcome.classify]
  | get => simp [runVerb, requestJson, hres, hok, VerbOutcome.classify]
  | getText => simp [runVerb, requestText, hres, hok, VerbOutcome.classify]
  | post =>
    simp only [runVerb, postRequest, hres]
    simp [hok, h201, h302]
    split <;> rfl

/-- A non-2xx, non-201/302 final response makes every error-translating
verb (all but the probe) end in the `handleError` classification. -/
theorem runVerb_error_of_resp (v : Verb) (cfg : JenkinsClientConfig)
    (t : Nat → Attempt) (jitter : Nat → Nat) (url : String) (r : HttpResponse)
    (hres : (fetchWithRetry cfg t jitter).result = .resp r)
    (hok : respOk r.status = false) (h201 : r.status ≠ 201)
    (h302 : r.status ≠ 302) (hv : v ≠ .head) :
    (runVerb v cfg t jitter url).1 = .error (handleError r url) := by
  cases v with
  | head => exact absurd rfl hv
  | get => simp [runVerb, requestJson, hres, hok, VerbOutcome.classify]
  | getText => simp [runVerb, requestText, hres, hok, VerbOutcome.classify]
  | post =>
    simp [runVerb, postRequest, hres, hok, h201, h302, VerbOutcome.classify]

/-- The probe verb returns the raw status: any final response at all is
a success for `head`. -/
theorem runVerb_head_of_resp (cfg : JenkinsClientConfig) (t : Nat → Attempt)
    (jitter : Nat → Nat) (url : String) (r : HttpResponse)
    (hres : (fetchWithRetry cfg t jitter).result = .resp r) :
    (runVerb .head cfg t jitter url).1 = .success := by
  simp [runVerb, headRequest, hres, VerbOutcome.classify]

/-- A rethrown `AbortError` surfaces as an abort for every verb. -/
theorem runVerb_of_abort (v : Verb) (cfg : JenkinsClientConfig)
    (t : Nat → Attempt) (jitter : Nat → Nat) (url : String)
    (hres : (fetchWithRetry cfg t jitter).result = .abortThrown) :
    (runVerb v cfg t jitter url).1 = .aborted := by
  cases v <;>
    simp [runVerb, requestJson, requestText, postRequest, headRequest, hres,
      VerbOutcome.classify]

/-! ### Claim theorems -/

/-- C10: the constructor strips every trailing `/` from the configured
base address, so two clients whose base addresses differ only in the
number of trailing slashes build the identical request URL
(`baseUrl + path + query string`) for every operation. -/
theorem clientUrl_trailing_slash_invariant
    (b : List Char) (k₁ k₂ : Nat) (path qs : List Char) :
    clientUrl (b ++ List.replicate k₁ '/') path qs =
      clientUrl (b ++ List.replicate k₂ '/') path qs := by
  unfold clientUrl
  rw [dropTrailingSlashes_append_replicate, dropTrailingSlashes_append_replicate]

/-- C5 counterexample: the three URLs of the claim are not pairwise
equivalent under the source's normalization — `.git` is stripped before
the trailing slash, so `https://host/org/repo.git/` keeps its `.git`
suffix and `looselyMatchesUrl` rejects both other forms. -/
theorem scm_dot_git_slash_not_equivalent :
    looselyMatchesUrl "git@host:org/repo.git".toList
        "https://host/org/repo.git/".toList = false ∧
      looselyMatchesUrl "https://host/org/repo".toList
        "https://host/org/repo.git/".toList = false := by decide

/-- C5 amended: the normalization maps `git@host:org/repo.git`,
`https://host/org/repo` and `https://host/org/repo/` to the common
normal form `host/org/repo` — in particular
`normalize("git@host:org/repo.git") == normalize("https://host/org/repo/")`
holds — but `https://host/org/repo.git/` normalizes to
`host/org/repo.git` (its trailing slash blocks the `.git` strip, which
is applied first), so it is not equivalent to the other two. -/
theorem scm_normalize_equivalences :
    normalizeUrl "git@host:org/repo.git".toList = "host/org/repo".toList ∧
      normalizeUrl "https://host/org/repo".toList = "host/org/repo".toList ∧
      normalizeUrl "https://host/org/repo/".toList = "host/org/repo".toList ∧
      looselyMatchesUrl "git@host:org/repo.git".toList
        "https://host/org/repo".toList = true ∧
      looselyMatchesUrl "git@host:org/repo.git".toList
        "https://host/org/repo/".toList = true ∧
      normalizeUrl "https://host/org/repo.git/".toList =
        "host/org/repo.git".toList := by decide

/-- C4 counterexample: a `skip` beyond `totalLines` violates
`startLine ≤ endLine` — on the one-line log `"a\n"` with `skip = 2`,
the handler reports `startLine = 2` but `endLine = 1`. -/
theorem pager_startLine_can_exceed_endLine :
    ¬ ((getBuildLogWindow ("a\n".toList) (some 2) 1).startLine ≤
        (getBuildLogWindow ("a\n".toList) (some 2) 1).endLine) := by decide

/-- C4 amended: every returned window satisfies `0 ≤ startLine`,
`endLine ≤ totalLines` and `hasMoreContent ⇔ endLine < totalLines`,
and `startLine ≤ endLine` holds whenever `skip ≤ totalLines` (in
particular for omitted and negative skips); a `skip` beyond
`totalLines` still yields an empty window with
`hasMoreContent = false`, but with `startLine = skip > endLine`. -/
theorem pager_window_invariants (raw : List Char) (skip : Option Int) (limit : Int)
    (w : BuildLogResponse) (hw : w = getBuildLogWindow raw skip limit) :
    0 ≤ w.startLine ∧
      w.endLine ≤ (w.totalLines : Int) ∧
      (w.hasMoreContent = true ↔ w.endLine < (w.totalLines : Int)) ∧
      (skip = none → w.startLine ≤ w.endLine) ∧
      (∀ s, skip = some s → s ≤ (w.totalLines : Int) → w.startLine ≤ w.endLine) ∧
      (∀ s, skip = some s → (w.totalLines : Int) < s →
        w.lines = [] ∧ w.hasMoreContent = false ∧ w.endLine < w.startLine) := by
  subst hw
  simp only [getBuildLogWindow_startLine, getBuildLogWindow_endLine,
    getBuildLogWindow_totalLines, getBuildLogWindow_hasMoreContent,
    getBuildLogWindow_lines]
  cases skip with
  | none =>
    simp only [pagerBounds]
    exact ⟨le_refl 0, by omega, by rw [decide_eq_true_eq], fun _ => by omega,
      fun s hs => Option.noConfusion hs, fun s hs => Option.noConfusion hs⟩
  | some s =>
    simp only [pagerBounds]
    by_cases hs : s < 0
    · simp only [if_pos hs]
      refine ⟨by omega, by omega, by rw [decide_eq_true_eq],
        fun h => Option.noConfusion h, fun s' hs' hle => by omega,
        fun s' hs' hgt => ?_⟩
      have h := Option.some.inj hs'
      subst h
      omega
    · simp only [if_neg hs]
      refine ⟨by omega, by omega, by rw [decide_eq_true_eq],
        fun h => Option.noConfusion h, fun s' hs' hle => ?_,
        fun s' hs' hgt => ?_⟩
      · have h := Option.some.inj hs'
        subst h
        omega
      · have h := Option.some.inj hs'
        subst h
        refine ⟨jsSlice_eq_nil _ (by omega), ?_, by omega⟩
        rw [decide_eq_false_iff_not]
        omega

/-- C4 witness: the amended invariants evaluated on the two-line log
`"a\nb\n"`, once with `skip = 1` (in range) and once with `skip = 5`
(beyond `totalLines`). -/
theorem pager_window_invariants_witness :
    ((getBuildLogWindow ("a\nb\n".toList) (some 1) 1).startLine ≤
        (getBuildLogWindow ("a\nb\n".toList) (some 1) 1).endLine) ∧
      ((getBuildLogWindow ("a\nb\n".toList) (some 5) 1).lines = [] ∧
        (getBuildLogWindow ("a\nb\n".toList) (some 5) 1).hasMoreContent = false ∧
        (getBuildLogWindow ("a\nb\n".toList) (some 5) 1).endLine <
          (getBuildLogWindow ("a\nb\n".toList) (some 5) 1).startLine) :=
  ⟨(pager_window_invariants ("a\nb\n".toList) (some 1) 1 _ rfl).2.2.2.2.1 1 rfl
      (by decide),
    (pager_window_invariants ("a\nb\n".toList) (some 5) 1 _ rfl).2.2.2.2.2 5 rfl
      (by decide)⟩

/-- C6 counterexample: on the log `"a\nb\nc\n"` (totalLines 3), a call
with `skip = -1, limit = 1` returns `["b"]` with `endLine = 2` — not
the last line `["c"]` and not a window ending at the true end
(`endLine = totalLines = 3`) as the claim demands. -/
theorem pager_negative_skip_not_at_end :
    (getBuildLogWindow ("a\nb\nc\n".toList) (some (-1)) 1).lines = ["b".toList] ∧
      (getBuildLogWindow ("a\nb\nc\n".toList) (some (-1)) 1).totalLines = 3 ∧
      (getBuildLogWindow ("a\nb\nc\n".toList) (some (-1)) 1).endLine ≠ 3 ∧
      (getBuildLogWindow ("a\nb\nc\n".toList) (some (-1)) 1).lines ≠
        ["c".toList] := by decide

/-- C6 amended: for positive `k` and `n`, `pager(L, -k, n)` ends `k`
lines *before* the true end of L — `endLine = max(0, totalLines - k)` —
and returns the last `min(n, MAX_LOG_LINES, totalLines ∸ k)` lines of
the log with its final `k` lines removed; consequently
`hasMoreContent ⇔ totalLines > 0`, and the window ends at the true end
only when the log is empty. -/
theorem pager_negative_skip_window (raw : List Char) (k n : Nat)
    (hk : 0 < k) (hn : 0 < n) (w : BuildLogResponse)
    (hw : w = getBuildLogWindow raw (some (-(k : Int))) (n : Int)) :
    w.endLine = max 0 ((w.totalLines : Int) - (k : Int)) ∧
      w.lines = lastN ((logLines raw).take (w.totalLines - k))
        (min (min n MAX_LOG_LINES) (w.totalLines - k)) ∧
      (w.hasMoreContent = true ↔ 0 < w.totalLines) := by
  subst hw
  simp only [getBuildLogWindow_startLine, getBuildLogWindow_endLine,
    getBuildLogWindow_totalLines, getBuildLogWindow_hasMoreContent,
    getBuildLogWindow_lines]
  have habs : ((n : Int)).natAbs = n := Int.natAbs_ofNat n
  have hneg : -(k : Int) < 0 := by omega
  simp only [pagerBounds, if_pos hneg, habs]
  set xs := logLines raw with hxs
  set T := xs.length with hT
  set E := min n MAX_LOG_LINES with hE
  refine ⟨by omega, ?_, by rw [decide_eq_true_eq]; omega⟩
  have he : max 0 ((T : Int) + -(k : Int)) = ((T - k : Nat) : Int) := by omega
  have hs2 : max 0 (((T - k : Nat) : Int) - (E : Int)) =
      ((T - k - E : Nat) : Int) := by omega
  rw [he, hs2]
  unfold jsSlice lastN
  have h3 : (((T - k : Nat) : Int) - ((T - k - E : Nat) : Int)).toNat =
      T - k - (T - k - E) := by omega
  have h4 : ((T - k - E : Nat) : Int).toNat = T - k - E := by omega
  rw [h3, h4]
  have hlen : (xs.take (T - k)).length = T - k := by
    rw [List.length_take]
    omega
  rw [hlen, List.drop_take]
  have h5 : T - k - (min (min n MAX_LOG_LINES) (T - k)) = T - k - E := by omega
  have h6 : T - k - (T - k - E) = min E (T - k) := by omega
  rw [h5, h6]

/-- C6 witness: the amended negative-skip description evaluated at
`"a\nb\nc\n"`, `k = 1`, `n = 1`. -/
theorem pager_negative_skip_window_witness :
    (getBuildLogWindow ("a\nb\nc\n".toList) (some (-(1 : Int))) 1).lines =
      lastN ((logLines ("a\nb\nc\n".toList)).take
          ((getBuildLogWindow ("a\nb\nc\n".toList) (some (-(1 : Int))) 1).totalLines - 1))
        (min (min 1 MAX_LOG_LINES)
          ((getBuildLogWindow ("a\nb\nc\n".toList) (some (-(1 : Int))) 1).totalLines - 1)) :=
  (pager_negative_skip_window ("a\nb\nc\n".toList) 1 1 Nat.one_pos Nat.one_pos
    _ rfl).2.1

/-- C8 counterexample: on a log of 10001 newline-terminated lines, the
call `pager(L, 0, totalLines(L))` clamps the limit to
`MAX_LOG_LINES = 10000`, so joining the returned lines reproduces
neither L nor L minus its trailing newline. -/
theorem pager_roundtrip_fails_beyond_cap :
    joinLines ((getBuildLogWindow bigLogRaw (some 0)
        ((logLines bigLogRaw).length : Int)).lines) ≠ bigLogRaw ∧
      joinLines ((getBuildLogWindow bigLogRaw (some 0)
        ((logLines bigLogRaw).length : Int)).lines) ++ ['\n'] ≠ bigLogRaw := by
  have hlen : (logLines bigLogRaw).length = 10001 := by
    rw [logLines_bigLogRaw, List.length_replicate]
  have hlines : (getBuildLogWindow bigLogRaw (some 0)
      ((logLines bigLogRaw).length : Int)).lines = List.replicate 10000 ['a'] := by
    rw [getBuildLogWindow_lines, logLines_bigLogRaw]
    simp only [pagerBounds, List.length_replicate]
    norm_num [jsSlice, MAX_LOG_LINES, List.take_replicate]
    rfl
  have hjlen : (joinLines (List.replicate 10000 ['a'])).length = 19999 := by
    rw [joinLines_replicate_length]
  have hblen : bigLogRaw.length = 20002 := by
    unfold bigLogRaw
    rw [flatten_replicate_length ['a', '\n'] 10001]
    rfl
  rw [hlines]
  constructor
  · intro h
    have hl := congrArg List.length h
    rw [hjlen, hblen] at hl
    norm_num at hl
  · intro h
    have hl := congrArg List.length h
    rw [List.length_append, hjlen, hblen] at hl
    norm_num at hl

/-- C8 amended: for every log text whose line count is within the
`MAX_LOG_LINES` window cap, concatenating
`pager(L, 0, totalLines(L)).lines` with newlines reproduces L's content
modulo a single trailing newline — the split drops exactly the one
trailing empty line produced by a trailing newline and preserves all
other empty lines. -/
theorem pager_roundtrip_within_cap (raw : List Char)
    (hcap : (logLines raw).length ≤ MAX_LOG_LINES)
    (w : BuildLogResponse)
    (hw : w = getBuildLogWindow raw (some 0) ((logLines raw).length : Int)) :
    joinLines w.lines = raw ∨ joinLines w.lines ++ ['\n'] = raw := by
  subst hw
  have habs : (((logLines raw).length : Int)).natAbs = (logLines raw).length :=
    Int.natAbs_ofNat _
  have hlines : (getBuildLogWindow raw (some 0)
      ((logLines raw).length : Int)).lines = logLines raw := by
    rw [getBuildLogWindow_lines]
    simp only [pagerBounds, habs]
    rw [if_neg (by omega : ¬ (0 : Int) < 0)]
    have hmin : min (logLines raw).length MAX_LOG_LINES =
        (logLines raw).length := by omega
    rw [hmin]
    have he : min ((logLines raw).length : Int)
        (0 + ((logLines raw).length : Int)) = ((logLines raw).length : Int) := by
      omega
    rw [he]
    unfold jsSlice
    have h7 : (((logLines raw).length : Int) - 0).toNat = (logLines raw).length := by
      omega
    rw [h7]
    simp
  rw [hlines]
  unfold logLines popTrailingEmpty
  by_cases hlast : (splitOnChar '\n' raw).getLast? = some []
  · rw [if_pos hlast]
    have hne : splitOnChar '\n' raw ≠ [] := splitOnChar_ne_nil _ _
    have hsplit : (splitOnChar '\n' raw).dropLast ++ [[]] = splitOnChar '\n' raw := by
      have h1 := List.dropLast_append_getLast hne
      have h2 : (splitOnChar '\n' raw).getLast hne = [] := by
        rw [List.getLast?_eq_getLast _ hne, Option.some_inj] at hlast
        exact hlast
      rw [h2] at h1
      exact h1
    have hall := joinLines_splitOnChar raw
    rw [← hsplit] at hall
    cases hdl : (splitOnChar '\n' raw).dropLast with
    | nil =>
      left
      rw [hdl] at hall
      simpa [joinLines] using hall
    | cons a t =>
      right
      rw [hdl] at hall
      rw [joinLines_append_nil_singleton] at hall
      exact hall
  · rw [if_neg hlast]
    left
    exact joinLines_splitOnChar raw

/-- C8 witness: the round-trip evaluated on the short log `"x\n"`. -/
theorem pager_roundtrip_within_cap_witness :
    (logLines ("x\n".toList)).length ≤ MAX_LOG_LINES ∧
      (joinLines ((getBuildLogWindow ("x\n".toList) (some 0)
          ((logLines ("x\n".toList)).length : Int)).lines) = "x\n".toList ∨
        joinLines ((getBuildLogWindow ("x\n".toList) (some 0)
          ((logLines ("x\n".toList)).length : Int)).lines) ++ ['\n'] =
          "x\n".toList) :=
  ⟨by decide, pager_roundtrip_within_cap ("x\n".toList) (by decide) _ rfl⟩

/-- C7: for every log, pattern predicate, and cap, `matchCount` is the
true number of matching lines (counted beyond the cap), the returned
matches are exactly the first `min(matchCount, maxMatches)` matching
lines in scan order with 1-indexed line numbers, and
`hasMoreMatches ⇔ matchCount > len(matches)` (the source's
`matchCount > maxMatches` test is equivalent because
`len(matches) = min(matchCount, maxMatches)`). -/
theorem search_result_caps (raw : List Char) (p : List Char → Bool)
    (maxMatches contextLines : Nat) (r : SearchLogResponse)
    (hr : r = searchBuildLog raw p maxMatches contextLines) :
    r.matchCount = (logLines raw).countP p ∧
      r.matchList.map (fun m => (m.lineNumber, m.line)) =
        (matchingLines (logLines raw) p).take maxMatches ∧
      r.matchList.length = min r.matchCount maxMatches ∧
      (r.hasMoreMatches = true ↔ r.matchList.length < r.matchCount) := by
  subst hr
  have h1 : (searchBuildLog raw p maxMatches contextLines).matchCount =
      (searchGo (logLines raw) p maxMatches contextLines (logLines raw) 0 0 []).1 :=
    rfl
  have h2 : (searchBuildLog raw p maxMatches contextLines).matchList =
      (searchGo (logLines raw) p maxMatches contextLines (logLines raw) 0 0 []).2 :=
    rfl
  have h3 : (searchBuildLog raw p maxMatches contextLines).hasMoreMatches =
      decide ((searchGo (logLines raw) p maxMatches contextLines
        (logLines raw) 0 0 []).1 > maxMatches) := rfl
  rw [searchGo_fst] at h1
  rw [searchGo_snd] at h2
  rw [searchGo_fst] at h3
  simp only [Nat.zero_add, List.length_nil, Nat.sub_zero, List.nil_append] at h1 h2 h3
  have hcount : (searchBuildLog raw p maxMatches contextLines).matchCount =
      (logLines raw).countP p := h1
  have hmap : (searchBuildLog raw p maxMatches
      contextLines).matchList.map (fun m => (m.lineNumber, m.line)) =
      (matchingLines (logLines raw) p).take maxMatches := by
    rw [h2, mkMatches_map_spec]
    rfl
  have hfl : (matchingLines (logLines raw) p).length = (logLines raw).countP p := by
    unfold matchingLines
    rw [List.length_map]
    exact enumFrom_filter_length p (logLines raw) 0
  have hlen : (searchBuildLog raw p maxMatches contextLines).matchList.length =
      min ((searchBuildLog raw p maxMatches contextLines).matchCount) maxMatches := by
    have hm := congrArg List.length hmap
    rw [List.length_map, List.length_take, hfl] at hm
    rw [hm, hcount]
    omega
  refine ⟨hcount, hmap, hlen, ?_⟩
  rw [h3, decide_eq_true_eq, hlen, hcount]
  omega

/-- C7 witness: the searcher evaluated on the spec's scenario log with
pattern `"ERROR"` and cap 100. -/
theorem search_result_caps_witness :
    (searchBuildLog ("a\nERROR x\nb\nERROR y\nc\n".toList)
        (listContainsSub "ERROR".toList) 100 0).matchCount =
      (logLines ("a\nERROR x\nb\nERROR y\nc\n".toList)).countP
        (listContainsSub "ERROR".toList) ∧
    (searchBuildLog ("a\nERROR x\nb\nERROR y\nc\n".toList)
        (listContainsSub "ERROR".toList) 100 0).matchList.map
        (fun m => (m.lineNumber, m.line)) =
      (matchingLines (logLines ("a\nERROR x\nb\nERROR y\nc\n".toList))
        (listContainsSub "ERROR".toList)).take 100 :=
  ⟨(search_result_caps ("a\nERROR x\nb\nERROR y\nc\n".toList)
      (listContainsSub "ERROR".toList) 100 0 _ rfl).1,
    (search_result_caps ("a\nERROR x\nb\nERROR y\nc\n".toList)
      (listContainsSub "ERROR".toList) 100 0 _ rfl).2.1⟩

/-- C1 counterexample: the probe verb (`head`) makes its `R + 1`
attempts but never translates the final retryable status into a
`ServerError` — with `maxRetries = 0` and an all-503 transport it
returns the raw status as a success after 1 attempt. -/
theorem probe_exhausted_retries_returns_success :
    (runVerb Verb.head ⟨0, 1000⟩ transportAll503 zeroJitter "u").1 =
      RunResult.success ∧
      (runVerb Verb.head ⟨0, 1000⟩ transportAll503 zeroJitter "u").2.1 = 1 := by
  decide

/-- C1 amended: for every configuration and verb, retryable statuses
followed by a 200 within the budget yield success after exactly
`failures + 1` attempts (with `failures` backoff sleeps); when all
`maxRetries + 1` attempts return retryable statuses, every verb makes
exactly `maxRetries + 1` attempts, the JSON fetch, text fetch and
submission verbs end in the terminal `ServerError` carrying the final
status and body, while the probe verb returns the final raw status
without error translation. -/
theorem retry_budget_all_verbs (cfg : JenkinsClientConfig) (t : Nat → Attempt)
    (jitter : Nat → Nat) (url : String) (v : Verb) :
    (∀ (f : Nat) (r : HttpResponse), f ≤ cfg.maxRetries →
      (∀ i, i < f → ∃ ri, t i = .ok ri ∧ retryableStatus ri.status = true) →
      t f = .ok r → r.status = 200 →
      (runVerb v cfg t jitter url).1 = .success ∧
        (runVerb v cfg t jitter url).2.1 = f + 1 ∧
        (runVerb v cfg t jitter url).2.2.length = f) ∧
    (∀ r : HttpResponse,
      (∀ i, i ≤ cfg.maxRetries →
        ∃ ri, t i = .ok ri ∧ retryableStatus ri.status = true) →
      t cfg.maxRetries = .ok r →
      (runVerb v cfg t jitter url).2.1 = cfg.maxRetries + 1 ∧
        (v ≠ .head → (runVerb v cfg t jitter url).1 =
          .error (serverError r.status r.body r.statusText)) ∧
        (v = .head → (runVerb v cfg t jitter url).1 = .success)) := by
  constructor
  · intro f r hf hpre ht h200
    have hnr : retryableStatus r.status = false := by rw [h200]; rfl
    obtain ⟨ds, hgo, hdslen⟩ :=
      fetchGo_retryable_then_success cfg.retryDelay t jitter f 0 cfg.maxRetries r
        (fun i hi => by simpa using hpre i hi) (by simpa using ht) hnr hf
    have hfr : fetchWithRetry cfg t jitter = ⟨.resp r, f + 1, ds⟩ := hgo
    have hres : (fetchWithRetry cfg t jitter).result = .resp r := by rw [hfr]
    have htrace := runVerb_trace v cfg t jitter url
    have hok : respOk r.status = true := by rw [h200]; rfl
    refine ⟨runVerb_success_of_resp v cfg t jitter url r hres hok (by omega)
      (by omega), ?_, ?_⟩
    · rw [htrace.1, hfr]
    · rw [htrace.2, hfr, hdslen]
  · intro r hall ht
    obtain ⟨r', ds, ht', hgo, hdslen⟩ :=
      fetchGo_all_retryable cfg.retryDelay t jitter cfg.maxRetries 0
        (fun i hi => by simpa using hall i hi)
    rw [Nat.zero_add, ht] at ht'
    have hrr : r = r' := Attempt.ok.inj ht'
    subst hrr
    have hfr : fetchWithRetry cfg t jitter = ⟨.resp r, cfg.maxRetries + 1, ds⟩ := hgo
    have hres : (fetchWithRetry cfg t jitter).result = .resp r := by rw [hfr]
    have htrace := runVerb_trace v cfg t jitter url
    obtain ⟨ri, hri, hret⟩ := hall cfg.maxRetries (le_refl _)
    rw [ht] at hri
    have hretr : retryableStatus r.status = true := by
      rw [Attempt.ok.inj hri]
      exact hret
    have hcases := retryable_cases r.status hretr
    have hok : respOk r.status = false := by
      rcases hcases with h | h | h | h | h <;> rw [h] <;> rfl
    have h401 : (r.status == 401 || r.status == 403) = false := by
      rcases hcases with h | h | h | h | h <;> rw [h] <;> rfl
    have h404 : (r.status == 404) = false := by
      rcases hcases with h | h | h | h | h <;> rw [h] <;> rfl
    have hhe : handleError r url = serverError r.status r.body r.statusText := by
      simp [handleError, h401, h404]
    refine ⟨by rw [htrace.1, hfr], ?_, ?_⟩
    · intro hv
      rw [runVerb_error_of_resp v cfg t jitter url r hres hok (by omega)
        (by omega) hv, hhe]
    · intro hv
      subst hv
      exact runVerb_head_of_resp cfg t jitter url r hres

/-- C1 witness: the amended retry budget evaluated with
`maxRetries = 2` on a 503-then-200 transport (success after 2
attempts) and on an all-503 transport (terminal `ServerError` after 3
attempts). -/
theorem retry_budget_all_verbs_witness :
    ((runVerb Verb.get ⟨2, 10⟩ transport503Then200 zeroJitter "u").1 =
        RunResult.success ∧
      (runVerb Verb.get ⟨2, 10⟩ transport503Then200 zeroJitter "u").2.1 = 2 ∧
      (runVerb Verb.get ⟨2, 10⟩ transport503Then200 zeroJitter "u").2.2.length =
        1) ∧
    ((runVerb Verb.getText ⟨2, 10⟩ transportAll503 zeroJitter "u").2.1 = 3 ∧
      (runVerb Verb.getText ⟨2, 10⟩ transportAll503 zeroJitter "u").1 =
        .error (serverError 503 "unavailable" "Service Unavailable")) := by
  constructor
  · refine (retry_budget_all_verbs ⟨2, 10⟩ transport503Then200 zeroJitter "u"
      Verb.get).1 1 resp200 (by decide) ?_ rfl rfl
    intro i hi
    have h0 : i = 0 := by omega
    subst h0
    exact ⟨resp503, rfl, by decide⟩
  · have h := (retry_budget_all_verbs ⟨2, 10⟩ transportAll503 zeroJitter "u"
      Verb.getText).2 resp503 (fun i _ => ⟨resp503, rfl, by decide⟩) rfl
    exact ⟨h.1, h.2.1 (by decide)⟩

/-- C2 counterexample: the probe verb (`head`) on a single 404 response
makes one attempt and returns the raw status as a success — it never
produces the `NotFound` typed error the claim demands of every verb. -/
theorem probe_404_returns_success :
    (runVerb Verb.head ⟨3, 1000⟩ transportAll404 zeroJitter "u").1 =
      RunResult.success ∧
      (runVerb Verb.head ⟨3, 1000⟩ transportAll404 zeroJitter "u").2.1 = 1 := by
  decide

/-- C2 amended: a first-attempt response with a non-retryable status
ends every verb after exactly one transport attempt with no backoff
delay; the JSON fetch, text fetch and submission verbs translate a 404
into the `NotFound` error and a 401/403 into the `AuthFailed` error
whose message carries the check-credentials hint, while the probe verb
returns the raw status as a success. -/
theorem no_retry_status_single_attempt (cfg : JenkinsClientConfig)
    (t : Nat → Attempt) (jitter : Nat → Nat) (url : String) (v : Verb)
    (r : HttpResponse) (ht : t 0 = .ok r)
    (hnr : retryableStatus r.status = false) :
    (runVerb v cfg t jitter url).2.1 = 1 ∧
      (runVerb v cfg t jitter url).2.2 = [] ∧
      (v ≠ .head → r.status = 404 →
        (runVerb v cfg t jitter url).1 = .error (notFoundError url 404 r.body)) ∧
      (v ≠ .head → (r.status = 401 ∨ r.status = 403) →
        (runVerb v cfg t jitter url).1 =
          .error (authFailedError r.status r.body)) ∧
      (v = .head → (runVerb v cfg t jitter url).1 = .success) := by
  obtain ⟨ds, hgo, hdslen⟩ :=
    fetchGo_retryable_then_success cfg.retryDelay t jitter 0 0 cfg.maxRetries r
      (fun i hi => absurd hi (by omega)) (by simpa using ht) hnr (by omega)
  have hds : ds = [] := List.length_eq_zero.mp hdslen
  subst hds
  have hfr : fetchWithRetry cfg t jitter = ⟨.resp r, 1, []⟩ := hgo
  have hres : (fetchWithRetry cfg t jitter).result = .resp r := by rw [hfr]
  have htrace := runVerb_trace v cfg t jitter url
  refine ⟨by rw [htrace.1, hfr], by rw [htrace.2, hfr], ?_, ?_, ?_⟩
  · intro hv h404
    have hok : respOk r.status = false := by rw [h404]; rfl
    have h401 : (r.status == 401 || r.status == 403) = false := by rw [h404]; rfl
    have hb404 : (r.status == 404) = true := by rw [h404]; rfl
    have hhe : handleError r url = notFoundError url r.status r.body := by
      simp [handleError, h401, hb404]
    rw [h404] at hhe
    rw [runVerb_error_of_resp v cfg t jitter url r hres hok (by omega) (by omega)
      hv, hhe]
  · intro hv hauth
    have hok : respOk r.status = false := by
      rcases hauth with h | h <;> rw [h] <;> rfl
    have h401 : (r.status == 401 || r.status == 403) = true := by
      rcases hauth with h | h <;> rw [h] <;> rfl
    have hhe : handleError r url = authFailedError r.status r.body := by
      simp [handleError, h401]
    rw [runVerb_error_of_resp v cfg t jitter url r hres hok (by omega) (by omega)
      hv, hhe]
  · intro hv
    subst hv
    exact runVerb_head_of_resp cfg t jitter url r hres

/-- C2 witness: a single 404 on the JSON fetch verb — one attempt, the
`NotFound` error with the request URL, no delay. -/
theorem no_retry_status_single_attempt_witness :
    (runVerb Verb.get ⟨3, 1000⟩ transportAll404 zeroJitter "u").2.1 = 1 ∧
      (runVerb Verb.get ⟨3, 1000⟩ transportAll404 zeroJitter "u").2.2 = [] ∧
      (runVerb Verb.get ⟨3, 1000⟩ transportAll404 zeroJitter "u").1 =
        .error (notFoundError "u" 404 "missing") := by
  have h := no_retry_status_single_attempt ⟨3, 1000⟩ transportAll404 zeroJitter
    "u" Verb.get resp404 rfl (by decide)
  exact ⟨h.1, h.2.1, h.2.2.1 (by decide) rfl⟩

/-- C9 (code bug): the retry guard rethrows only a `DOMException`
named `AbortError`, but on the required Node ≥ 20 runtime the
per-request `AbortSignal.timeout` aborts with a `DOMException` named
`TimeoutError`, which the guard misses — a timed-out attempt takes the
generic catch path and is retried with backoff.  With `maxRetries = 3`
and every attempt timing out, the JSON fetch makes 4 transport
attempts and sleeps the backoff delays 1000, 2000 and 4000 ms before
the timeout finally surfaces; with a timeout followed by a 200, the
timed-out request is retried and succeeds.  The claim's (and the
spec's) "propagates immediately, no further transport attempts, no
backoff delay, never retried" is false of the program. -/
theorem timeout_is_retried :
    (runVerb Verb.get ⟨3, 1000⟩ transportAllTimeout zeroJitter "u").1 =
      RunResult.timeout ∧
      (runVerb Verb.get ⟨3, 1000⟩ transportAllTimeout zeroJitter "u").2.1 = 4 ∧
      (runVerb Verb.get ⟨3, 1000⟩ transportAllTimeout zeroJitter "u").2.2 =
        [1000, 2000, 4000] ∧
      (runVerb Verb.get ⟨3, 1000⟩ transportTimeoutThen200 zeroJitter "u").1 =
        RunResult.success ∧
      (runVerb Verb.get ⟨3, 1000⟩ transportTimeoutThen200 zeroJitter "u").2.1 =
        2 := by
  decide

/-- C3 (code bug): `getTextWithHeaders` performs a single direct fetch
and never consults the retry policy — on a transport that answers 503
then 200, with `maxRetries = 3`, it makes exactly one attempt and
throws the `ServerError` for the 503, while the text verb of the
retrying client succeeds after 2 attempts on the same transport. -/
theorem getTextWithHeaders_does_not_retry :
    (getTextWithHeaders transport503Then200 "u").2.1 = 1 ∧
      (getTextWithHeaders transport503Then200 "u").1 =
        .error (serverError 503 "unavailable" "Service Unavailable") ∧
      (runVerb Verb.getText ⟨3, 1000⟩ transport503Then200 zeroJitter "u").1 =
        RunResult.success ∧
      (runVerb Verb.getText ⟨3, 1000⟩ transport503Then200 zeroJitter "u").2.1 =
        2 := by
  decide

end HostMcpJenkins
